import Mathlib

/-!
Shallow embedding of `src/script.js` (hospital locator): the resilient
fetch helper `tryFetchJson`, the haversine distance, the search pipeline
of `searchHospitals`, and the HTML-escaping helpers.

Conventions of the embedding:
* Network I/O is modelled by oracles: each endpoint carries a function
  from the zero-based attempt index to the outcome of that attempt
  (`AttemptResult`), and `searchHospitals` receives the outcome of each
  of its two `tryFetchJson` calls as a parameter.
* `JSON.parse` is modelled by the `parsed? : Option α` field of a
  response: `some` when the body text parses, `none` when it does not.
* JavaScript `NaN` coordinates (from `parseFloat(undefined)`) are
  modelled as `Option.none`; numbers are modelled as `ℚ` in the pipeline
  and as `ℝ` in the haversine formula.
* Backoff waits (`wait(backoff)`) only affect timing, not values, and
  are dropped.
-/

namespace Script

/-- Outcome of one `fetch` attempt against one URL (lines 33-34 of
`script.js`): either the fetch (or body read) threw, or it produced a
response with `ok`/`status`/`statusText` and a body `text`, whose
`JSON.parse` result is `parsed?`. -/
inductive AttemptResult (α : Type) where
  | netErr (msg : String)
  | response (ok : Bool) (status : Nat) (statusText : String)
      (text : String) (parsed? : Option α)
deriving DecidableEq

/-- The diagnostic built on line 44 of `script.js`. -/
def nonJsonMsg (url : String) (status : Nat) (text : String) : String :=
  "Non-JSON response from " ++ url ++ " (status " ++ toString status ++
    ") — first chars: " ++ text.take 180

/-- The diagnostic built on line 39 of `script.js` (`HTTP status statusText`). -/
def httpErrMsg (status : Nat) (statusText : String) : String :=
  "HTTP " ++ toString status ++ " " ++ statusText

/-- One iteration of the attempt loop body (lines 32-51): `.ok` models the
`return { data, url }`, `.error` the error object reaching `catch (err)`.
The `throw new Error(HTTP ...)` on line 39 sits inside the inner `try`, so
it is caught by `catch (parseErr)` on line 42 and replaced by the
`Non-JSON response` diagnostic: a parsed body with a non-2xx status
surfaces `nonJsonMsg`, not `httpErrMsg`. -/
def attemptStep {α : Type} (url : String) : AttemptResult α → Except String (α × String)
  | .netErr msg => .error msg
  | .response ok status _statusText text parsed? =>
      match parsed? with
      | some data => if ok then .ok (data, url) else .error (nonJsonMsg url status text)
      | none => .error (nonJsonMsg url status text)

/-- The inner attempt loop (line 31) for one endpoint: `n` remaining
attempts, `idx` the current zero-based attempt index, `lastErr` the
`lastErr` variable. Returns (early-return value, final `lastErr`, the log
of attempts performed as `(url, attemptIndex)` pairs, in order). -/
def runEndpoint {α : Type} (url : String) (att : Nat → AttemptResult α) :
    Nat → Nat → Option String →
    Option (α × String) × Option String × List (String × Nat)
  | 0, _, lastErr => (none, lastErr, [])
  | n+1, idx, lastErr =>
      match attemptStep url (att idx) with
      | .ok r => (some r, lastErr, [(url, idx)])
      | .error e =>
          let rest := runEndpoint url att n (idx+1) (some e)
          (rest.1, rest.2.1, (url, idx) :: rest.2.2)

/-- The outer endpoint loop (line 30): endpoints are tried in list order;
each carries its per-attempt oracle. -/
def runEndpoints {α : Type} :
    List (String × (Nat → AttemptResult α)) → Nat → Option String →
    Option (α × String) × Option String × List (String × Nat)
  | [], _, lastErr => (none, lastErr, [])
  | (url, att) :: rest, tries, lastErr =>
      match runEndpoint url att tries 0 lastErr with
      | (some r, le, log) => (some r, le, log)
      | (none, le, log) =>
          let r2 := runEndpoints rest tries le
          (r2.1, r2.2.1, log ++ r2.2.2)

/-- `tryFetchJson(urls, opts, tries)` (lines 28-55): returns the parsed
data with its source URL, or the last recorded error (line 54:
`throw lastErr || new Error('All fetch attempts failed')`), together with
the ordered log of attempts performed. -/
def tryFetchJson {α : Type} (urls : List (String × (Nat → AttemptResult α)))
    (tries : Nat) : Except String (α × String) × List (String × Nat) :=
  match runEndpoints urls tries none with
  | (some r, _, log) => (.ok r, log)
  | (none, le, log) => (.error (le.getD "All fetch attempts failed"), log)

/-- The error message recorded by a (failing) attempt; arbitrary on a
successful attempt. -/
def errOf {α : Type} (url : String) (att : Nat → AttemptResult α) (k : Nat) : String :=
  match attemptStep url (att k) with
  | .error e => e
  | .ok _ => ""

/-! ### The search pipeline of `searchHospitals` (lines 57-189) -/

/-- The `center` sub-object of an Overpass element (`el.center.lat`,
`el.center.lon`); each field may be absent. -/
structure Center where
  lat : Option ℚ
  lon : Option ℚ
deriving DecidableEq

/-- One element of the Overpass response. `tags` and ids are only used by
the card rendering, which is presentation glue, so they are not modelled. -/
structure OsmElement where
  lat : Option ℚ
  lon : Option ℚ
  center : Option Center
deriving DecidableEq

/-- Line 128: `(el.lat !== undefined) ? el.lat : (el.center && el.center.lat)`,
followed by `parseFloat` (line 132); an unresolvable value gives `NaN`,
modelled as `none`. -/
def resolveLat (el : OsmElement) : Option ℚ :=
  match el.lat with
  | some v => some v
  | none => el.center.bind Center.lat

/-- Line 129, as `resolveLat` but for longitude. -/
def resolveLon (el : OsmElement) : Option ℚ :=
  match el.lon with
  | some v => some v
  | none => el.center.bind Center.lon

/-- One entry of `items` after the distance pass (lines 127-138): the
element, its resolved coordinates, and its computed distance. -/
structure RankedItem where
  el : OsmElement
  lat2 : ℚ
  lon2 : ℚ
  distance : ℚ
deriving DecidableEq

/-- Lines 127-138: map each element to its resolved coordinates, drop the
ones where either is `NaN`, attach the computed distance. The distance
calculator is a parameter `dist lat lon lat2 lon2`. -/
def buildItems (lat lon : ℚ) (dist : ℚ → ℚ → ℚ → ℚ → ℚ)
    (elements : List OsmElement) : List RankedItem :=
  elements.filterMap fun el =>
    match resolveLat el, resolveLon el with
    | some la, some lo => some ⟨el, la, lo, dist lat lon la lo⟩
    | _, _ => none

/-- Line 139: `items.sort((a,b) => a.distance - b.distance)` — a stable
ascending sort by distance. -/
def sortItems (items : List RankedItem) : List RankedItem :=
  items.insertionSort fun a b => a.distance ≤ b.distance

/-- The classified outcome `searchHospitals` surfaces through `statusP` /
`resultsDiv`: the five terminal status messages and the rendered result
list. `results` carries the cards shown and the `N` of
`Found N items; showing nearest M.` (line 145). -/
inductive SearchOutcome where
  | invalidInput
  | placeNotFound
  | geodataUnavailable
  | noResults
  | results (shown : List RankedItem) (total : Nat)
  | unexpected
deriving DecidableEq

/-- Which network fetches were issued (one `tryFetchJson` call each). -/
inductive NetCall where
  | geocode
  | overpass
deriving DecidableEq

/-- Outcome of one whole `tryFetchJson` call as seen by `searchHospitals`:
the parsed data plus source URL, or the thrown error. -/
inductive FetchResult (α : Type) where
  | ok (data : α) (url : String)
  | fail (err : String)
deriving DecidableEq

/-- One candidate of the geocoding response; `lat`/`lon` after
`parseFloat` (lines 82-83). -/
structure Candidate where
  lat : ℚ
  lon : ℚ
deriving DecidableEq

/-- The Overpass response body: `hospitalJson.elements` may be absent
(line 120: `hospitalJson.elements || []`). -/
structure OverpassJson where
  elements : Option (List OsmElement)
deriving DecidableEq

/-- `String.prototype.trim` (line 58): strip leading and trailing
whitespace. -/
def trimStr (s : String) : String :=
  ⟨(((s.data.dropWhile Char.isWhitespace).reverse.dropWhile
      Char.isWhitespace).reverse)⟩

/-- `searchHospitals` (lines 57-189), with network effects abstracted:
`geoFetch` is the outcome of the geocoding `tryFetchJson` call (its data
`none` when the parsed JSON is not an array), `ovFetch` the outcome of
the Overpass call, `dist` the distance calculator. Returns the surfaced
outcome and the list of fetches issued, in order. A throwing geocoding
fetch propagates to the top-level `catch` (line 185) and surfaces the
generic error; a throwing Overpass fetch is caught on line 114 and
surfaces the rate-limit message. -/
def searchHospitals (placeValue : String)
    (geoFetch : FetchResult (Option (List Candidate)))
    (ovFetch : FetchResult OverpassJson)
    (dist : ℚ → ℚ → ℚ → ℚ → ℚ) : SearchOutcome × List NetCall :=
  let place := trimStr placeValue
  if place = "" then (.invalidInput, [])
  else
    match geoFetch with
    | .fail _ => (.unexpected, [.geocode])
    | .ok geoData _ =>
      match geoData with
      | none => (.placeNotFound, [.geocode])
      | some [] => (.placeNotFound, [.geocode])
      | some (c :: _) =>
        let lat := c.lat
        let lon := c.lon
        match ovFetch with
        | .fail _ => (.geodataUnavailable, [.geocode, .overpass])
        | .ok hospitalJson _ =>
          let elements := hospitalJson.elements.getD []
          if elements.length = 0 then (.noResults, [.geocode, .overpass])
          else
            let items := buildItems lat lon dist elements
            let toShow := (sortItems items).take 30
            (.results toShow elements.length, [.geocode, .overpass])

/-- Projection: the `N` of `Found N items` when the outcome is a result list. -/
def resultTotal : SearchOutcome → Option Nat
  | .results _ t => some t
  | _ => none

/-- Projection: the number of cards rendered when the outcome is a result list. -/
def resultCount : SearchOutcome → Option Nat
  | .results s _ => some s.length
  | _ => none

/-- Projection: the distances of the rendered cards, in rendering order. -/
def resultDistances : SearchOutcome → Option (List ℚ)
  | .results s _ => some (s.map RankedItem.distance)
  | _ => none

/-! ### HTML escaping helpers (lines 191-200). Strings are modelled as
`List Char`. -/

/-- The quotation-mark character, `"`. -/
def quotChar : Char := Char.ofNat 34

/-- The apostrophe character. -/
def aposChar : Char := Char.ofNat 39

/-- The per-character replacement of line 194:
`s.replace(/[&<>"']/g, c => ({...})[c])`. -/
def escapeChar (c : Char) : List Char :=
  if c = '&' then "&amp;".toList
  else if c = '<' then "&lt;".toList
  else if c = '>' then "&gt;".toList
  else if c = quotChar then "&quot;".toList
  else if c = aposChar then "&#39;".toList
  else [c]

/-- `escapeHtml` (lines 192-197). A falsy argument (for a string: the
empty string) returns `''`. -/
def escapeHtml (s : List Char) : List Char :=
  if s = [] then [] else s.flatMap escapeChar

/-- `escapeHtmlAttr` (lines 198-200):
`escapeHtml(s).replace(/"/g, '%22')`. -/
def escapeHtmlAttr (s : List Char) : List Char :=
  (escapeHtml s).flatMap fun c => if c = quotChar then "%22".toList else [c]

/-- Test fixture: ten Overpass elements of which the first and the sixth
have no resolvable coordinates. -/
def elementsTwoBad : List OsmElement :=
  [⟨none, none, none⟩,
   ⟨some 1, some 0, none⟩, ⟨some 2, some 0, none⟩, ⟨some 3, some 0, none⟩,
   ⟨some 4, some 0, none⟩, ⟨none, none, none⟩,
   ⟨some 5, some 0, none⟩, ⟨some 6, some 0, none⟩, ⟨some 7, some 0, none⟩,
   ⟨some 8, some 0, none⟩]

/-! ### `haversine` (lines 14-25), over the reals -/

/-- `Math.atan2(y, x)`: the angle of the point `(x, y)`, in `(-π, π]`.
(`ℝ` has a single zero, so the JavaScript `-0` branches collapse.) -/
noncomputable def atan2 (y x : ℝ) : ℝ :=
  if 0 < x then Real.arctan (y / x)
  else if x = 0 then
    if 0 < y then Real.pi / 2
    else if y < 0 then -(Real.pi / 2)
    else 0
  else
    if 0 ≤ y then Real.arctan (y / x) + Real.pi
    else Real.arctan (y / x) - Real.pi

/-- `toRad` (line 16): degrees to radians. -/
noncomputable def toRad (d : ℝ) : ℝ := d * Real.pi / 180

/-- `haversine(lat1, lon1, lat2, lon2)` (lines 15-25): great-circle
distance in km on a sphere of radius 6371 km. -/
noncomputable def haversine (lat1 lon1 lat2 lon2 : ℝ) : ℝ :=
  let R : ℝ := 6371
  let dLat := toRad (lat2 - lat1)
  let dLon := toRad (lon2 - lon1)
  let a := Real.sin (dLat/2) * Real.sin (dLat/2) +
           Real.cos (toRad lat1) * Real.cos (toRad lat2) *
           Real.sin (dLon/2) * Real.sin (dLon/2)
  let c := 2 * atan2 (Real.sqrt a) (Real.sqrt (1-a))
  R * c

/-! ## Helper lemmas -/

theorem quotChar_not_mem_escapeChar (c : Char) : quotChar ∉ escapeChar c := by
  unfold escapeChar
  by_cases h1 : c = '&'
  · simp [h1]; decide
  by_cases h2 : c = '<'
  · simp [h1, h2]; decide
  by_cases h3 : c = '>'
  · simp [h1, h2, h3]; decide
  by_cases h4 : c = quotChar
  · simp [h1, h2, h3, h4]; decide
  by_cases h5 : c = aposChar
  · simp [h1, h2, h3, h4, h5]; decide
  · simp [h1, h2, h3, h4, h5]
    exact fun h => h4 h.symm

theorem flatMap_replaceQuote_of_not_mem (l : List Char) (h : quotChar ∉ l) :
    (l.flatMap fun c => if c = quotChar then "%22".toList else [c]) = l := by
  induction l with
  | nil => rfl
  | cons a l ih =>
      simp only [List.mem_cons, not_or] at h
      simp only [List.flatMap_cons, ih h.2]
      rw [if_neg fun hq => h.1 hq.symm]
      rfl

theorem quotChar_not_mem_escapeHtml (s : List Char) : quotChar ∉ escapeHtml s := by
  unfold escapeHtml
  split
  · simp
  · intro hmem
    obtain ⟨a, _, ha⟩ := List.mem_flatMap.mp hmem
    exact quotChar_not_mem_escapeChar a ha

instance : IsTotal RankedItem fun a b => a.distance ≤ b.distance :=
  ⟨fun a b => le_total a.distance b.distance⟩

instance : IsTrans RankedItem fun a b => a.distance ≤ b.distance :=
  ⟨fun _ _ _ h1 h2 => le_trans h1 h2⟩

theorem sortItems_perm (items : List RankedItem) :
    List.Perm (sortItems items) items :=
  List.perm_insertionSort _ items

theorem sortItems_sorted (items : List RankedItem) :
    (sortItems items).Sorted fun a b => a.distance ≤ b.distance :=
  List.sorted_insertionSort _ items

theorem mem_buildItems {lat lon : ℚ} {dist : ℚ → ℚ → ℚ → ℚ → ℚ}
    {elements : List OsmElement} {r : RankedItem}
    (h : r ∈ buildItems lat lon dist elements) :
    resolveLat r.el = some r.lat2 ∧ resolveLon r.el = some r.lon2 := by
  obtain ⟨el, _, heq⟩ := List.mem_filterMap.mp h
  cases h1 : resolveLat el with
  | none => rw [h1] at heq; simp at heq
  | some la =>
      cases h2 : resolveLon el with
      | none => rw [h1, h2] at heq; simp at heq
      | some lo =>
          rw [h1, h2] at heq
          simp only [Option.some.injEq] at heq
          rw [← heq]
          exact ⟨h1, h2⟩

/-- Inverting `searchHospitals` on a `results` outcome: it can only arise
on the full success path, and the rendered list, reported total and call
log are the ones computed on lines 127-145. -/
theorem searchHospitals_results_inv
    (placeValue : String) (gf : FetchResult (Option (List Candidate)))
    (ov : FetchResult OverpassJson) (dist : ℚ → ℚ → ℚ → ℚ → ℚ)
    (shown : List RankedItem) (total : Nat) (calls : List NetCall)
    (h : searchHospitals placeValue gf ov dist = (.results shown total, calls)) :
    ∃ (c : Candidate) (rest : List Candidate) (hj : OverpassJson) (u1 u2 : String),
      gf = .ok (some (c :: rest)) u1 ∧ ov = .ok hj u2 ∧
      hj.elements.getD [] ≠ [] ∧
      shown = (sortItems (buildItems c.lat c.lon dist (hj.elements.getD []))).take 30 ∧
      total = (hj.elements.getD []).length ∧
      calls = [.geocode, .overpass] := by
  unfold searchHospitals at h
  by_cases hp : trimStr placeValue = ""
  · simp [hp] at h
  rw [if_neg hp] at h
  cases gf with
  | fail e => simp at h
  | ok geoData u1 =>
    cases geoData with
    | none => simp at h
    | some l =>
      cases l with
      | nil => simp at h
      | cons c rest =>
        cases ov with
        | fail e => simp at h
        | ok hj u2 =>
          by_cases he : (hj.elements.getD []).length = 0
          · simp [he] at h
          · simp only [he, if_false, if_neg he] at h
            obtain ⟨h1, h2⟩ := Prod.mk.injEq .. ▸ h
            injection h1 with hs ht
            exact ⟨c, rest, hj, u1, u2, rfl, rfl,
              fun hnil => he (by simp [hnil]), hs.symm, ht.symm, h2.symm⟩

theorem runEndpoint_all_fail {α : Type} (url : String) (att : Nat → AttemptResult α) :
    ∀ (n idx : Nat) (le : Option String),
    (∀ k, k < n → ∃ e, attemptStep url (att (idx + k)) = .error e) →
    ∃ le2, runEndpoint url att n idx le =
      (none, le2, (List.range' idx n).map fun k => (url, k)) := by
  intro n
  induction n with
  | zero => intro idx le _; exact ⟨le, by simp [runEndpoint]⟩
  | succ n ih =>
      intro idx le h
      obtain ⟨e, he⟩ := h 0 (Nat.succ_pos n)
      rw [Nat.add_zero] at he
      obtain ⟨le2, ih'⟩ := ih (idx+1) (some e) (fun k hk => by
        have hx := h (k+1) (Nat.succ_lt_succ hk)
        rwa [show idx + (k+1) = idx + 1 + k by omega] at hx)
      refine ⟨le2, ?_⟩
      unfold runEndpoint
      rw [he]
      simp only [ih']
      simp [List.range']

theorem runEndpoint_all_fail_lastErr {α : Type} (url : String)
    (att : Nat → AttemptResult α) :
    ∀ (n idx : Nat) (le : Option String),
    (∀ k, k < n → ∃ e, attemptStep url (att (idx + k)) = .error e) →
    0 < n →
    (runEndpoint url att n idx le).2.1 = some (errOf url att (idx + n - 1)) := by
  intro n
  induction n with
  | zero => intro idx le _ h0; exact absurd h0 (lt_irrefl 0)
  | succ n ih =>
      intro idx le h _
      obtain ⟨e, he⟩ := h 0 (Nat.succ_pos n)
      rw [Nat.add_zero] at he
      unfold runEndpoint
      rw [he]
      cases n with
      | zero =>
          show (some e : Option String) = some (errOf url att (idx + 1 - 1))
          rw [Nat.add_sub_cancel]
          unfold errOf
          rw [he]
      | succ m =>
          have ih' := ih (idx+1) (some e) (fun k hk => by
            have hx := h (k+1) (Nat.succ_lt_succ hk)
            rwa [show idx + (k+1) = idx + 1 + k by omega] at hx)
            (Nat.succ_pos m)
          show (runEndpoint url att (m+1) (idx+1) (some e)).2.1 = _
          rw [ih', show idx + 1 + (m + 1) - 1 = idx + (m + 1 + 1) - 1 from by omega]

theorem runEndpoint_success {α : Type} (url : String) (att : Nat → AttemptResult α)
    (r : α × String) :
    ∀ (j n idx : Nat) (le : Option String),
    (∀ k, k < j → ∃ e, attemptStep url (att (idx + k)) = .error e) →
    attemptStep url (att (idx + j)) = .ok r →
    j < n →
    ∃ le2, runEndpoint url att n idx le =
      (some r, le2, (List.range' idx (j+1)).map fun k => (url, k)) := by
  intro j
  induction j with
  | zero =>
      intro n idx le _ hok hn
      cases n with
      | zero => exact absurd hn (lt_irrefl 0)
      | succ m =>
          rw [Nat.add_zero] at hok
          refine ⟨le, ?_⟩
          unfold runEndpoint
          rw [hok]
          simp [List.range']
  | succ j ih =>
      intro n idx le h hok hn
      cases n with
      | zero => exact absurd hn (Nat.not_lt_zero _)
      | succ m =>
          obtain ⟨e, he⟩ := h 0 (Nat.succ_pos j)
          rw [Nat.add_zero] at he
          obtain ⟨le2, ih'⟩ := ih m (idx+1) (some e)
            (fun k hk => by
              have hx := h (k+1) (Nat.succ_lt_succ hk)
              rwa [show idx + (k+1) = idx + 1 + k by omega] at hx)
            (by rwa [show idx + 1 + j = idx + (j+1) by omega])
            (Nat.lt_of_succ_lt_succ hn)
          refine ⟨le2, ?_⟩
          unfold runEndpoint
          rw [he]
          simp only [ih']
          simp [List.range']

theorem runEndpoints_all_fail {α : Type} :
    ∀ (urls : List (String × (Nat → AttemptResult α))) (tries : Nat)
      (le : Option String),
    (∀ p ∈ urls, ∀ k, k < tries → ∃ e, attemptStep p.1 (p.2 k) = .error e) →
    runEndpoints urls tries le =
      (none,
       (match urls.getLast? with
        | none => le
        | some p => if tries = 0 then le else some (errOf p.1 p.2 (tries - 1))),
       urls.flatMap fun p => (List.range tries).map fun k => (p.1, k)) := by
  intro urls
  induction urls with
  | nil => intro tries le _; simp [runEndpoints]
  | cons p rest ih =>
      intro tries le h
      obtain ⟨url, att⟩ := p
      have hp : ∀ k, k < tries → ∃ e, attemptStep url (att (0 + k)) = .error e := by
        intro k hk
        rw [Nat.zero_add]
        exact h (url, att) (List.mem_cons_self _ _) k hk
      obtain ⟨le1, h1⟩ := runEndpoint_all_fail url att tries 0 le hp
      have hrest : ∀ q ∈ rest, ∀ k, k < tries → ∃ e, attemptStep q.1 (q.2 k) = .error e :=
        fun q hq => h q (List.mem_cons_of_mem _ hq)
      have hle1 : tries = 0 → le1 = le := by
        intro ht
        subst ht
        show le1 = le
        exact (congrArg (fun t => t.2.1) h1).symm
      have hle1p : 0 < tries → le1 = some (errOf url att (tries - 1)) := by
        intro ht
        have h2 := runEndpoint_all_fail_lastErr url att tries 0 le hp ht
        rw [h1] at h2
        rw [Nat.zero_add] at h2
        exact h2
      unfold runEndpoints
      rw [h1]
      dsimp only
      rw [ih tries le1 hrest]
      dsimp only
      rw [Prod.ext_iff]
      refine ⟨rfl, ?_⟩
      rw [Prod.ext_iff]
      refine ⟨?_, ?_⟩
      · show (match rest.getLast? with
            | none => le1
            | some p => if tries = 0 then le1 else some (errOf p.1 p.2 (tries - 1))) =
          match ((url, att) :: rest).getLast? with
            | none => le
            | some p => if tries = 0 then le else some (errOf p.1 p.2 (tries - 1))
        cases rest with
        | nil =>
            show le1 = if tries = 0 then le else some (errOf url att (tries - 1))
            cases Nat.eq_zero_or_pos tries with
            | inl ht => rw [if_pos ht]; exact hle1 ht
            | inr ht => rw [if_neg (Nat.pos_iff_ne_zero.mp ht)]; exact hle1p ht
        | cons q qs =>
            rw [List.getLast?_cons_cons]
            obtain ⟨l, hl⟩ := Option.isSome_iff_exists.mp
              (List.getLast?_isSome.mpr (List.cons_ne_nil q qs))
            rw [hl]
            cases Nat.eq_zero_or_pos tries with
            | inl ht => simp only [if_pos ht]; exact hle1 ht
            | inr ht => simp only [if_neg (Nat.pos_iff_ne_zero.mp ht)]
      · show (List.range' 0 tries).map (fun k => (url, k)) ++
            (rest.flatMap fun p => (List.range tries).map fun k => (p.1, k)) =
          ((url, att) :: rest).flatMap fun p => (List.range tries).map fun k => (p.1, k)
        rw [List.flatMap_cons, List.range_eq_range']

theorem runEndpoints_first_success {α : Type} (u : String)
    (att : Nat → AttemptResult α) (j tries : Nat) (r : α × String)
    (post : List (String × (Nat → AttemptResult α)))
    (hbefore : ∀ k, k < j → ∃ e, attemptStep u (att k) = .error e)
    (hsucc : attemptStep u (att j) = .ok r)
    (hj : j < tries) :
    ∀ (pre : List (String × (Nat → AttemptResult α))) (le : Option String),
    (∀ p ∈ pre, ∀ k, k < tries → ∃ e, attemptStep p.1 (p.2 k) = .error e) →
    (runEndpoints (pre ++ (u, att) :: post) tries le).1 = some r ∧
    (runEndpoints (pre ++ (u, att) :: post) tries le).2.2 =
      (pre.flatMap fun p => (List.range tries).map fun k => (p.1, k)) ++
        (List.range (j+1)).map fun k => (u, k) := by
  intro pre
  induction pre with
  | nil =>
      intro le _
      have hb0 : ∀ k, k < j → ∃ e, attemptStep u (att (0 + k)) = .error e := by
        intro k hk
        rw [Nat.zero_add]
        exact hbefore k hk
      obtain ⟨le2, h2⟩ := runEndpoint_success u att r j tries 0 le hb0
        (by rwa [Nat.zero_add]) hj
      rw [List.nil_append]
      unfold runEndpoints
      rw [h2]
      dsimp only
      exact ⟨rfl, by simp [List.range_eq_range']⟩
  | cons p pre ih =>
      intro le hpre
      obtain ⟨url, att2⟩ := p
      have hp : ∀ k, k < tries → ∃ e, attemptStep url (att2 (0 + k)) = .error e := by
        intro k hk
        rw [Nat.zero_add]
        exact hpre (url, att2) (List.mem_cons_self _ _) k hk
      obtain ⟨le1, h1⟩ := runEndpoint_all_fail url att2 tries 0 le hp
      have ih' := ih le1 (fun q hq => hpre q (List.mem_cons_of_mem _ hq))
      rw [List.cons_append]
      unfold runEndpoints
      rw [h1]
      dsimp only
      refine ⟨ih'.1, ?_⟩
      rw [ih'.2, List.flatMap_cons, List.range_eq_range', List.append_assoc]

theorem tryFetchJson_match_success {α : Type}
    (urls : List (String × (Nat → AttemptResult α))) (tries : Nat) (r : α × String)
    (hfst : (runEndpoints urls tries none).1 = some r) :
    tryFetchJson urls tries = (.ok r, (runEndpoints urls tries none).2.2) := by
  unfold tryFetchJson
  cases h : runEndpoints urls tries none with
  | mk fst snd =>
      cases snd with
      | mk le2 log =>
          rw [h] at hfst
          dsimp at hfst
          subst hfst
          rfl

theorem attemptStep_ok_url {α : Type} {url : String} {a : AttemptResult α}
    {r : α × String} (h : attemptStep url a = .ok r) : r.2 = url := by
  cases a with
  | netErr m => simp [attemptStep] at h
  | response ok status st text parsed? =>
      cases parsed? with
      | none => simp [attemptStep] at h
      | some d =>
          by_cases hok : ok = true
          · simp [attemptStep, hok] at h
            rw [← h]
          · simp [attemptStep, hok] at h

theorem atan2_nonneg (y x : ℝ) (hy : 0 ≤ y) (hx : 0 ≤ x) : 0 ≤ atan2 y x := by
  unfold atan2
  by_cases h1 : 0 < x
  · rw [if_pos h1]
    have h := Real.arctan_strictMono.monotone (div_nonneg hy h1.le)
    rwa [Real.arctan_zero] at h
  · have hx0 : x = 0 := le_antisymm (not_lt.mp h1) hx
    rw [if_neg h1, if_pos hx0]
    by_cases h2 : 0 < y
    · rw [if_pos h2]
      positivity
    · rw [if_neg h2, if_neg (not_lt.mpr hy)]

theorem haversine_nonneg (lat1 lon1 lat2 lon2 : ℝ) :
    0 ≤ haversine lat1 lon1 lat2 lon2 := by
  unfold haversine
  dsimp only
  exact mul_nonneg (by norm_num)
    (mul_nonneg (by norm_num)
      (atan2_nonneg _ _ (Real.sqrt_nonneg _) (Real.sqrt_nonneg _)))

theorem haversine_comm (lat1 lon1 lat2 lon2 : ℝ) :
    haversine lat1 lon1 lat2 lon2 = haversine lat2 lon2 lat1 lon1 := by
  unfold haversine toRad
  dsimp only
  have ha : Real.sin ((lat1 - lat2) * Real.pi / 180 / 2) *
        Real.sin ((lat1 - lat2) * Real.pi / 180 / 2) +
        Real.cos (lat2 * Real.pi / 180) * Real.cos (lat1 * Real.pi / 180) *
        Real.sin ((lon1 - lon2) * Real.pi / 180 / 2) *
        Real.sin ((lon1 - lon2) * Real.pi / 180 / 2) =
      Real.sin ((lat2 - lat1) * Real.pi / 180 / 2) *
        Real.sin ((lat2 - lat1) * Real.pi / 180 / 2) +
        Real.cos (lat1 * Real.pi / 180) * Real.cos (lat2 * Real.pi / 180) *
        Real.sin ((lon2 - lon1) * Real.pi / 180 / 2) *
        Real.sin ((lon2 - lon1) * Real.pi / 180 / 2) := by
    rw [show (lat1 - lat2) * Real.pi / 180 / 2 =
          -((lat2 - lat1) * Real.pi / 180 / 2) by ring,
        show (lon1 - lon2) * Real.pi / 180 / 2 =
          -((lon2 - lon1) * Real.pi / 180 / 2) by ring,
        Real.sin_neg, Real.sin_neg]
    ring
  rw [ha]

theorem haversine_self (lat lon : ℝ) : haversine lat lon lat lon = 0 := by
  unfold haversine toRad atan2
  simp [sub_self, Real.sin_zero, Real.sqrt_zero, Real.sqrt_one, Real.arctan_zero]

end Script

/-! ## Claims -/

namespace Script

/-- C10: for every string `s`, `escapeHtmlAttr s = escapeHtml s`: the
extra `.replace(/"/g, '%22')` never fires because `escapeHtml` leaves no
raw double-quote in its output. -/
theorem escapeHtmlAttr_eq_escapeHtml (s : List Char) :
    escapeHtmlAttr s = escapeHtml s :=
  flatMap_replaceQuote_of_not_mem _ (quotChar_not_mem_escapeHtml s)

/-- C8: an input that trims to the empty string yields the invalid-input
outcome immediately, with no network fetch issued. -/
theorem searchHospitals_blank_input (placeValue : String)
    (gf : FetchResult (Option (List Candidate))) (ov : FetchResult OverpassJson)
    (dist : ℚ → ℚ → ℚ → ℚ → ℚ) (h : trimStr placeValue = "") :
    searchHospitals placeValue gf ov dist = (.invalidInput, []) := by
  unfold searchHospitals
  simp [h]

/-- Witness for C8 at the whitespace-only input `"   "`. -/
theorem searchHospitals_blank_input_witness :
    searchHospitals "   " (.fail "e") (.fail "e") (fun _ _ _ _ => 0) =
      (.invalidInput, []) :=
  searchHospitals_blank_input "   " (.fail "e") (.fail "e") (fun _ _ _ _ => 0)
    (by decide)

set_option maxRecDepth 8192 in
/-- C7 (failing input): a response whose body `"\x7b\x7d"` parses as JSON
but whose status is 500 `Internal Server Error` records the `Non-JSON
response` diagnostic of line 44, not the `HTTP 500 Internal Server Error`
message built on line 39 (which the inner `catch (parseErr)` swallows);
the attempt is still retried (two attempts logged with `tries = 2`), so it
is recoverable. -/
theorem attemptStep_parsed_non2xx :
    attemptStep (α := Nat) "u"
        (.response false 500 "Internal Server Error" "\x7b\x7d" (some 1)) =
      .error (nonJsonMsg "u" 500 "\x7b\x7d") ∧
    nonJsonMsg "u" 500 "\x7b\x7d" ≠ httpErrMsg 500 "Internal Server Error" ∧
    (tryFetchJson (α := Nat)
        [("u", fun _ => .response false 500 "Internal Server Error" "\x7b\x7d" (some 1))]
        2).2.length = 2 := by
  refine ⟨rfl, by decide, rfl⟩

/-- C5: every record rendered by a successful search has coordinates that
were resolved (directly or through the nested `center` field) to actual
numbers: elements whose latitude or longitude resolves to `NaN` are
dropped before ranking and never reach the output. -/
theorem searchHospitals_resolved_coords
    (placeValue : String) (gf : FetchResult (Option (List Candidate)))
    (ov : FetchResult OverpassJson) (dist : ℚ → ℚ → ℚ → ℚ → ℚ)
    (shown : List RankedItem) (total : Nat) (calls : List NetCall)
    (h : searchHospitals placeValue gf ov dist = (.results shown total, calls))
    (r : RankedItem) (hr : r ∈ shown) :
    resolveLat r.el = some r.lat2 ∧ resolveLon r.el = some r.lon2 := by
  obtain ⟨c, rest, hj, u1, u2, _, _, _, hs, _, _⟩ :=
    searchHospitals_results_inv _ _ _ _ _ _ _ h
  subst hs
  exact mem_buildItems ((sortItems_perm _).mem_iff.mp (List.take_subset _ _ hr))

/-- Witness for C5 at a one-element Overpass response. -/
theorem searchHospitals_resolved_coords_witness :
    resolveLat ⟨some 1, some 2, none⟩ = some 1 ∧
    resolveLon ⟨some 1, some 2, none⟩ = some 2 :=
  searchHospitals_resolved_coords "x" (.ok (some [⟨0, 0⟩]) "g")
    (.ok ⟨some [⟨some 1, some 2, none⟩]⟩ "o") (fun _ _ _ _ => 0)
    [⟨⟨some 1, some 2, none⟩, 1, 2, 0⟩] 1 [.geocode, .overpass] rfl
    ⟨⟨some 1, some 2, none⟩, 1, 2, 0⟩ (List.mem_singleton.mpr rfl)

/-- C4 (counterexample): with ten elements of which two lack resolvable
coordinates, the orchestrator renders 8 records but reports
`Found 10 items` (line 145 uses `elements.length`, the raw count), so it
does not report total = 8 as the claim states. -/
theorem searchHospitals_total_cex :
    resultTotal (searchHospitals "x" (.ok (some [⟨0, 0⟩]) "g")
        (.ok ⟨some elementsTwoBad⟩ "o") (fun _ _ la _ => la)).1 = some 10 ∧
    resultCount (searchHospitals "x" (.ok (some [⟨0, 0⟩]) "g")
        (.ok ⟨some elementsTwoBad⟩ "o") (fun _ _ la _ => la)).1 = some 8 ∧
    (10 : ℕ) ≠ 8 := by
  refine ⟨?_, ?_, by decide⟩ <;>
    norm_num +decide [searchHospitals, trimStr, buildItems, sortItems,
      resolveLat, resolveLon, resultTotal, resultCount, elementsTwoBad]

/-- C4 (amended): the total reported alongside the result is the raw
element count of the geodata response, not the retained count; the
rendered records are the retained ones, capped at 30. -/
theorem searchHospitals_total_raw
    (placeValue : String) (gf : FetchResult (Option (List Candidate)))
    (ov : FetchResult OverpassJson) (dist : ℚ → ℚ → ℚ → ℚ → ℚ)
    (shown : List RankedItem) (total : Nat) (calls : List NetCall)
    (h : searchHospitals placeValue gf ov dist = (.results shown total, calls)) :
    ∃ (c : Candidate) (rest : List Candidate) (hj : OverpassJson) (u1 u2 : String),
      gf = .ok (some (c :: rest)) u1 ∧ ov = .ok hj u2 ∧
      total = (hj.elements.getD []).length ∧
      shown.length =
        min 30 (buildItems c.lat c.lon dist (hj.elements.getD [])).length := by
  obtain ⟨c, rest, hj, u1, u2, hgf, hov, _, hs, ht, _⟩ :=
    searchHospitals_results_inv _ _ _ _ _ _ _ h
  refine ⟨c, rest, hj, u1, u2, hgf, hov, ht, ?_⟩
  subst hs
  rw [List.length_take, (sortItems_perm _).length_eq]

/-- Witness for C4's amended theorem at a two-element response with one
unresolvable element: total is the raw count 2, one record is shown. -/
theorem searchHospitals_total_raw_witness :
    ∃ (c : Candidate) (rest : List Candidate) (hj : OverpassJson) (u1 u2 : String),
      (FetchResult.ok (some [⟨0, 0⟩]) "g" :
          FetchResult (Option (List Candidate))) = .ok (some (c :: rest)) u1 ∧
      (FetchResult.ok (⟨some [⟨none, none, none⟩, ⟨some 1, some 0, none⟩]⟩ :
          OverpassJson) "o") = .ok hj u2 ∧
      (2 : ℕ) = (hj.elements.getD []).length ∧
      ([(⟨⟨some 1, some 0, none⟩, 1, 0, 0⟩ : RankedItem)]).length =
        min 30 (buildItems c.lat c.lon (fun _ _ _ _ => 0)
          (hj.elements.getD [])).length :=
  searchHospitals_total_raw "x" (.ok (some [⟨0, 0⟩]) "g")
    (.ok ⟨some [⟨none, none, none⟩, ⟨some 1, some 0, none⟩]⟩ "o")
    (fun _ _ _ _ => 0) [⟨⟨some 1, some 0, none⟩, 1, 0, 0⟩] 2
    [.geocode, .overpass] rfl

/-- C6 (counterexample): a geodata response with one element that has no
resolvable coordinate makes the search return an empty successful result
(`Found 1 items; showing nearest 0`), not the no-results outcome: the
emptiness check of line 121 runs on the raw element list, before the
coordinate filter of line 135. -/
theorem searchHospitals_noResults_cex :
    (searchHospitals "x" (.ok (some [⟨0, 0⟩]) "g")
        (.ok ⟨some [⟨none, none, none⟩]⟩ "o") (fun _ _ _ _ => 0)).1 =
      .results [] 1 ∧
    (SearchOutcome.results [] 1 ≠ .noResults) :=
  ⟨rfl, by decide⟩

/-- C6 (amended): the no-results outcome is returned exactly when the raw
element list of the geodata response is empty; when elements exist but
none has a resolvable coordinate, the search instead returns an empty
successful result whose reported total is the raw element count. -/
theorem searchHospitals_noResults_amended :
    (∀ (placeValue : String) (gf : FetchResult (Option (List Candidate)))
       (c : Candidate) (rest : List Candidate) (u1 : String) (hj : OverpassJson)
       (u2 : String) (dist : ℚ → ℚ → ℚ → ℚ → ℚ),
       trimStr placeValue ≠ "" → gf = .ok (some (c :: rest)) u1 →
       hj.elements.getD [] = [] →
       searchHospitals placeValue gf (.ok hj u2) dist =
         (.noResults, [.geocode, .overpass])) ∧
    (∀ (placeValue : String) (gf : FetchResult (Option (List Candidate)))
       (c : Candidate) (rest : List Candidate) (u1 : String) (hj : OverpassJson)
       (u2 : String) (dist : ℚ → ℚ → ℚ → ℚ → ℚ),
       trimStr placeValue ≠ "" → gf = .ok (some (c :: rest)) u1 →
       hj.elements.getD [] ≠ [] →
       buildItems c.lat c.lon dist (hj.elements.getD []) = [] →
       searchHospitals placeValue gf (.ok hj u2) dist =
         (.results [] (hj.elements.getD []).length, [.geocode, .overpass])) := by
  constructor
  · intro placeValue gf c rest u1 hj u2 dist hp hgf helems
    subst hgf
    unfold searchHospitals
    rw [if_neg hp]
    simp [helems]
  · intro placeValue gf c rest u1 hj u2 dist hp hgf helems hb
    subst hgf
    unfold searchHospitals
    rw [if_neg hp]
    have hlen : (hj.elements.getD []).length ≠ 0 :=
      fun h0 => helems (List.length_eq_zero.mp h0)
    simp only [hlen, if_neg hlen, hb]
    rfl

/-- Witness for C6's amended theorem: an empty element list gives the
no-results message; a single unresolvable element gives an empty success. -/
theorem searchHospitals_noResults_amended_witness :
    searchHospitals "x" (.ok (some [⟨0, 0⟩]) "g") (.ok ⟨some []⟩ "o")
        (fun _ _ _ _ => 0) = (.noResults, [.geocode, .overpass]) ∧
    searchHospitals "x" (.ok (some [⟨0, 0⟩]) "g")
        (.ok ⟨some [⟨none, none, none⟩]⟩ "o") (fun _ _ _ _ => 0) =
      (.results [] 1, [.geocode, .overpass]) :=
  ⟨searchHospitals_noResults_amended.1 "x" _ ⟨0, 0⟩ [] "g" ⟨some []⟩ "o" _
      (by decide) rfl rfl,
   searchHospitals_noResults_amended.2 "x" _ ⟨0, 0⟩ [] "g"
      ⟨some [⟨none, none, none⟩]⟩ "o" _ (by decide) rfl (by decide) rfl⟩

/-- C3: a successful search renders the retained records sorted ascending
by computed distance, truncated to the 30 nearest (everything dropped is
at least as far as everything shown); in particular distances
`[2.1, 0.5, 10.3, 1.0, 7.7]` come back as `[0.5, 1.0, 2.1, 7.7, 10.3]`,
and 40 valid elements yield exactly 30 records. -/
theorem searchHospitals_sorted_truncated :
    (∀ (placeValue : String) (gf : FetchResult (Option (List Candidate)))
       (ov : FetchResult OverpassJson) (dist : ℚ → ℚ → ℚ → ℚ → ℚ)
       (shown : List RankedItem) (total : Nat) (calls : List NetCall),
       searchHospitals placeValue gf ov dist = (.results shown total, calls) →
       shown.Sorted (fun a b => a.distance ≤ b.distance) ∧
       shown.length ≤ 30 ∧
       ∃ (c : Candidate) (rest : List Candidate) (hj : OverpassJson)
         (u1 u2 : String) (dropped : List RankedItem),
         gf = .ok (some (c :: rest)) u1 ∧ ov = .ok hj u2 ∧
         List.Perm (shown ++ dropped)
           (buildItems c.lat c.lon dist (hj.elements.getD [])) ∧
         ∀ x ∈ shown, ∀ y ∈ dropped, x.distance ≤ y.distance) ∧
    resultDistances (searchHospitals "x" (.ok (some [⟨0, 0⟩]) "g")
        (.ok ⟨some [⟨some 2.1, some 0, none⟩, ⟨some 0.5, some 0, none⟩,
          ⟨some 10.3, some 0, none⟩, ⟨some 1.0, some 0, none⟩,
          ⟨some 7.7, some 0, none⟩]⟩ "o")
        (fun _ _ la _ => la)).1 = some [0.5, 1.0, 2.1, 7.7, 10.3] ∧
    resultCount (searchHospitals "x" (.ok (some [⟨0, 0⟩]) "g")
        (.ok ⟨some ((List.range 40).map fun i =>
          ({ lat := some (i : ℚ), lon := some 0, center := none } :
            OsmElement))⟩ "o")
        (fun _ _ la _ => la)).1 = some 30 := by
  refine ⟨?_, ?_, ?_⟩
  · intro placeValue gf ov dist shown total calls h
    obtain ⟨c, rest, hj, u1, u2, hgf, hov, _, hs, _, _⟩ :=
      searchHospitals_results_inv _ _ _ _ _ _ _ h
    subst hs
    have hsort := sortItems_sorted (buildItems c.lat c.lon dist (hj.elements.getD []))
    refine ⟨List.Pairwise.sublist (List.take_sublist 30 _) hsort, ?_,
      c, rest, hj, u1, u2,
      (sortItems (buildItems c.lat c.lon dist (hj.elements.getD []))).drop 30,
      hgf, hov, ?_, ?_⟩
    · rw [List.length_take]
      exact min_le_left _ _
    · rw [List.take_append_drop]
      exact sortItems_perm _
    · rw [← List.take_append_drop 30
        (sortItems (buildItems c.lat c.lon dist (hj.elements.getD [])))] at hsort
      exact (List.pairwise_append.mp hsort).2.2
  · norm_num +decide [searchHospitals, trimStr, buildItems, sortItems,
      resolveLat, resolveLon, resultDistances]
  · norm_num +decide [searchHospitals, trimStr, buildItems, sortItems,
      resolveLat, resolveLon, resultCount, List.range_succ]

/-- Witness for C3's general conjunct at a one-element response. -/
theorem searchHospitals_sorted_truncated_witness :
    ([(⟨⟨some 5, some 6, none⟩, 5, 6, 0⟩ : RankedItem)]).Sorted
      (fun a b => a.distance ≤ b.distance) :=
  (searchHospitals_sorted_truncated.1 "x" (.ok (some [⟨0, 0⟩]) "g")
    (.ok ⟨some [⟨some 5, some 6, none⟩]⟩ "o") (fun _ _ _ _ => 0)
    [⟨⟨some 5, some 6, none⟩, 5, 6, 0⟩] 1 [.geocode, .overpass] rfl).1

/-- C1: `tryFetchJson` walks endpoints strictly in list order; the first
attempt whose body parses as JSON with a 2xx status returns
`Success(parsedBody, sourceUrl = that endpoint)` at once - no further
attempt on that endpoint, no later endpoint contacted - and every earlier
endpoint was attempted exactly `tries` times first. -/
theorem tryFetchJson_first_success {α : Type}
    (pre post : List (String × (Nat → AttemptResult α)))
    (u : String) (att : Nat → AttemptResult α) (j tries : Nat) (r : α × String)
    (hpre : ∀ p ∈ pre, ∀ k, k < tries → ∃ e, attemptStep p.1 (p.2 k) = .error e)
    (hbefore : ∀ k, k < j → ∃ e, attemptStep u (att k) = .error e)
    (hsucc : attemptStep u (att j) = .ok r)
    (hj : j < tries) :
    (tryFetchJson (pre ++ (u, att) :: post) tries).1 = .ok r ∧
    (tryFetchJson (pre ++ (u, att) :: post) tries).2 =
      (pre.flatMap fun p => (List.range tries).map fun k => (p.1, k)) ++
        ((List.range (j+1)).map fun k => (u, k)) ∧
    r.2 = u := by
  obtain ⟨hfst, hlog⟩ :=
    runEndpoints_first_success u att j tries r post hbefore hsucc hj pre none hpre
  rw [tryFetchJson_match_success _ _ _ hfst]
  exact ⟨rfl, hlog, attemptStep_ok_url hsucc⟩

/-- Witness for C1, mirroring the spec example: E1 always fails, E2
succeeds on its first attempt, `tries = 3`: the result is the parsed data
with source URL E2, after exactly three attempts on E1 and one on E2. -/
theorem tryFetchJson_first_success_witness :
    (tryFetchJson [("E1", fun _ => AttemptResult.netErr (α := Nat) "down"),
        ("E2", fun _ => .response true 200 "OK" "[]" (some 7))] 3).1 =
      .ok (7, "E2") ∧
    (tryFetchJson [("E1", fun _ => AttemptResult.netErr (α := Nat) "down"),
        ("E2", fun _ => .response true 200 "OK" "[]" (some 7))] 3).2 =
      [("E1", 0), ("E1", 1), ("E1", 2), ("E2", 0)] := by
  have h := tryFetchJson_first_success
    [("E1", fun _ => AttemptResult.netErr (α := Nat) "down")] []
    "E2" (fun _ => .response true 200 "OK" "[]" (some 7)) 0 3 (7, "E2")
    (by
      intro p hp k hk
      rw [List.mem_singleton] at hp
      subst hp
      exact ⟨"down", rfl⟩)
    (fun k hk => absurd hk (Nat.not_lt_zero k))
    rfl
    (by decide)
  exact ⟨h.1, h.2.1.trans (by decide)⟩

/-- C2: when every endpoint fails every attempt, `tryFetchJson` performs
exactly `urls.length * tries` attempts and throws the most recently
recorded error (the failure of the last attempt of the last endpoint), or
the generic `All fetch attempts failed` error when no attempt ever ran
(empty endpoint list, or a zero attempt budget). -/
theorem tryFetchJson_all_fail {α : Type}
    (urls : List (String × (Nat → AttemptResult α))) (tries : Nat)
    (hfail : ∀ p ∈ urls, ∀ k, k < tries → ∃ e, attemptStep p.1 (p.2 k) = .error e) :
    (tryFetchJson urls tries).2.length = urls.length * tries ∧
    (∀ (u : String) (att : Nat → AttemptResult α) (e : String),
       urls.getLast? = some (u, att) → 0 < tries →
       attemptStep u (att (tries - 1)) = .error e →
       (tryFetchJson urls tries).1 = .error e) ∧
    ((urls = [] ∨ tries = 0) →
       (tryFetchJson urls tries).1 = .error "All fetch attempts failed") := by
  have h3 := runEndpoints_all_fail urls tries none hfail
  have hT : tryFetchJson urls tries =
      (.error ((match urls.getLast? with
                | none => (none : Option String)
                | some p =>
                    if tries = 0 then none
                    else some (errOf p.1 p.2 (tries - 1))).getD
          "All fetch attempts failed"),
       urls.flatMap fun p => (List.range tries).map fun k => (p.1, k)) := by
    unfold tryFetchJson
    rw [h3]
  rw [hT]
  refine ⟨?_, ?_, ?_⟩
  · dsimp only
    rw [List.length_flatMap]
    have hmap : (urls.map (List.length ∘ fun p =>
        (List.range tries).map fun k => (p.1, k))) =
        List.replicate urls.length tries := by
      simp only [Function.comp_def, List.length_map, List.length_range]
      exact List.map_const' _ _
    rw [hmap, List.sum_const_nat]
  · intro u att e hlast ht hstep
    dsimp only
    rw [hlast]
    dsimp only
    rw [if_neg (Nat.pos_iff_ne_zero.mp ht)]
    have he : errOf u att (tries - 1) = e := by
      unfold errOf
      rw [hstep]
    rw [he]
    rfl
  · intro hor
    dsimp only
    cases hor with
    | inl h0 => subst h0; rfl
    | inr h0 =>
        subst h0
        cases hg : urls.getLast? with
        | none => rfl
        | some p => rfl

/-- Witness for C2: one always-failing endpoint and `tries = 2` yields
two attempts and the last error `boom`. -/
theorem tryFetchJson_all_fail_witness :
    (tryFetchJson [("u", fun _ => AttemptResult.netErr (α := Nat) "boom")] 2).2.length = 2 ∧
    (tryFetchJson [("u", fun _ => AttemptResult.netErr (α := Nat) "boom")] 2).1 =
      .error "boom" := by
  have h := tryFetchJson_all_fail
    [("u", fun _ => AttemptResult.netErr (α := Nat) "boom")] 2
    (by
      intro p hp k hk
      rw [List.mem_singleton] at hp
      subst hp
      exact ⟨"boom", rfl⟩)
  exact ⟨h.1, h.2.1 "u" _ "boom" rfl (by decide) rfl⟩

/-- C9: for all real coordinate components, the haversine distance is
non-negative, symmetric (here exactly, hence within the 1e-6 tolerance),
and zero at identical points. -/
theorem haversine_props (lat1 lon1 lat2 lon2 : ℝ) :
    0 ≤ haversine lat1 lon1 lat2 lon2 ∧
    |haversine lat1 lon1 lat2 lon2 - haversine lat2 lon2 lat1 lon1| ≤
      1 / 1000000 ∧
    haversine lat1 lon1 lat1 lon1 = 0 :=
  ⟨haversine_nonneg lat1 lon1 lat2 lon2,
   by
    rw [haversine_comm lat1 lon1 lat2 lon2, sub_self, abs_zero]
    norm_num,
   haversine_self lat1 lon1⟩

end Script
